import Mathlib

/-!
# Verification of the MRZ parsing pipeline (web-text-scanner)

Shallow embedding of the MRZ line-detection, normalization, format-selection
and result-projection pipeline of `src/app/services/camera.service.ts`
(`parseMRZFromText`, `formatMRZDate`, `getDocumentType`).

Text is modelled as `List Char`.  The external `mrz` npm library's `parse`
function is not part of this repository; it is modelled as an explicit
parameter of type `Parser` (`List Line → Except Unit ParseResult`), where
`Except.error` models a thrown JavaScript exception and `Except.ok` a
returned result object with its `valid` flag and `fields`.
-/

set_option maxRecDepth 4000

abbrev Line := List Char

/-- Characters matched by the JavaScript regular expression class `\s`
(ECMAScript WhiteSpace and LineTerminator characters). -/
def jsWsChars : List Char :=
  [' ', '\t', '\n', '\r', '\x0b', '\x0c', '\u00a0', '\u1680',
   '\u2000', '\u2001', '\u2002', '\u2003', '\u2004', '\u2005', '\u2006',
   '\u2007', '\u2008', '\u2009', '\u200a', '\u2028', '\u2029', '\u202f',
   '\u205f', '\u3000', '\ufeff']

def isJsWhitespace (c : Char) : Bool := jsWsChars.contains c

/-- JavaScript `line.trim()`: remove leading and trailing whitespace. -/
def jsTrim (l : Line) : Line :=
  ((l.dropWhile isJsWhitespace).reverse.dropWhile isJsWhitespace).reverse

/-- JavaScript `line.toUpperCase()` on ASCII text. -/
def toUpperLine (l : Line) : Line := l.map Char.toUpper

/-- JavaScript `line.replace(/\s/g, '')`: strip all whitespace. -/
def stripWs (l : Line) : Line := l.filter (fun c => !isJsWhitespace c)

/-- JavaScript `line.replace(/O/g, '0')`: common OCR error, letter O for digit 0.
(The source's further `replace(/</g, '<')` is the identity and is omitted.) -/
def fixO (l : Line) : Line := l.map (fun c => if c = 'O' then '0' else c)

/-- The cleaning applied to each candidate line (camera.service.ts:197-201). -/
def cleanLine (l : Line) : Line := fixO (stripWs l)

/-- Membership in the character class `[A-Z0-9<]`. -/
def isMRZChar (c : Char) : Bool :=
  (('A' ≤ c && c ≤ 'Z') || ('0' ≤ c && c ≤ '9') || c = '<')

/-- The candidate filter (camera.service.ts:186-188): the line contains `<`,
or after whitespace removal it matches `/^[A-Z0-9<]{30,}$/`. -/
def isCandidate (l : Line) : Bool :=
  l.contains '<' ||
    (30 ≤ (stripWs l).length && (stripWs l).all isMRZChar)

/-- The Line Classifier (camera.service.ts:185-188): split the transcript on
newlines, trim and uppercase each line, keep the candidate lines. -/
def candidateLines (text : Line) : List Line :=
  ((text.splitOn '\n').map (fun l => toUpperLine (jsTrim l))).filter isCandidate

/-- JavaScript `s.padEnd(w, c)`. -/
def padEnd (l : Line) (w : Nat) (c : Char) : Line :=
  l ++ List.replicate (w - l.length) c

/-- JavaScript `l.substring(0, w).padEnd(w, '<')`: the width normalization applied for
each format attempt (camera.service.ts:208,213,220,223). -/
def normWidth (l : Line) (w : Nat) : Line := padEnd (l.take w) w '<'

/-- The Line Normalizer for a target width: trim, uppercase, strip
whitespace, map O to 0, truncate and pad to exactly `w` characters. -/
def normalizeLine (l : Line) (w : Nat) : Line :=
  normWidth (cleanLine (toUpperLine (jsTrim l))) w

/-- The fields of the result object of the external `mrz` library that
`parseMRZFromText` reads; each may be absent (`null`). -/
structure MRZFields where
  documentCode : Option Line
  documentNumber : Option Line
  firstName : Option Line
  lastName : Option Line
  nationality : Option Line
  birthDate : Option Line
  sex : Option Line
  expirationDate : Option Line
  issuingState : Option Line
deriving Repr, DecidableEq

/-- The result object returned by the external `mrz` library's `parse`. -/
structure ParseResult where
  valid : Bool
  fields : MRZFields
deriving Repr, DecidableEq

/-- The external `parseMRZ` function: it may throw (`Except.error`) or
return a `ParseResult`. -/
abbrev Parser := List Line → Except Unit ParseResult

/-- The `MRZData` record published on success (camera.service.ts:12-24). -/
structure MRZData where
  documentType : Line
  documentNumber : Line
  firstName : Line
  lastName : Line
  nationality : Line
  birthDate : Line
  sex : Line
  expirationDate : Line
  issuingState : Line
  valid : Bool
  rawMRZ : List Line
deriving Repr, DecidableEq

def noMRZMsg : String :=
  "No MRZ detected. Position the MRZ zone (bottom of ID/passport) in view."

def incompleteMsg : String :=
  "Incomplete MRZ detected. Need at least 2 lines."

def validationFailedMsg : String :=
  "MRZ detected but validation failed. Try adjusting the camera angle."

def parseExceptionMsg : String :=
  "Could not parse MRZ. Ensure the document is clearly visible."

/-- The document type label mapping `getDocumentType` (camera.service.ts:259-271). -/
def getDocumentType (code : Line) : Line :=
  match code with
  | [] => "Unknown".toList
  | c :: _ =>
    let u := Char.toUpper c
    if u = 'P' then "Passport".toList
    else if u = 'I' then "ID Card".toList
    else if u = 'A' then "ID Card (Type A)".toList
    else if u = 'C' then "ID Card (Type C)".toList
    else if u = 'V' then "Visa".toList
    else if u = 'D' then "Driver\x27s License".toList
    else "Document (".toList ++ code ++ ")".toList

/-- Accumulate the numeric value of a digit run, as `parseInt` does. -/
def digitsVal (l : Line) : Nat :=
  l.foldl (fun acc c => acc * 10 + (c.toNat - 48)) 0

/-- The maximal leading run of decimal digits. -/
def leadingDigits (l : Line) : Line := l.takeWhile Char.isDigit

/-- JavaScript `parseInt(s)` in base 10: skip leading whitespace, optional
sign, then the maximal digit run; `none` models `NaN`. -/
def jsParseInt (s : Line) : Option Int :=
  let t := s.dropWhile isJsWhitespace
  let signBody : Int × Line :=
    match t with
    | c :: rest => if c = '-' then (-1, rest) else if c = '+' then (1, rest) else (1, t)
    | [] => (1, [])
  let ds := leadingDigits signBody.2
  if ds = [] then none else some (signBody.1 * (digitsVal ds : Int))

/-- The date projection `formatMRZDate` (camera.service.ts:273-281): a 6-character date string is
split as YY MM DD, the century is 20 for `parseInt(YY) < 30` (false for NaN)
and 19 otherwise; any other length yields the empty string. -/
def formatMRZDate (dateStr : Line) : Line :=
  if dateStr.length ≠ 6 then []
  else
    let year := dateStr.take 2
    let month := (dateStr.drop 2).take 2
    let day := (dateStr.drop 4).take 2
    let yearLt30 : Bool :=
      match jsParseInt year with
      | some n => decide (n < 30)
      | none => false
    let fullYear := (if yearLt30 then ['2', '0'] else ['1', '9']) ++ year
    fullYear ++ ('-' :: month) ++ ('-' :: day)

/-- The cleaned candidate lines of a transcript. -/
def cleanedOf (text : Line) : List Line := (candidateLines text).map cleanLine

/-- The three lines handed to the TD1 attempt (camera.service.ts:208). -/
def td1Norm (text : Line) : List Line :=
  ((cleanedOf text).take 3).map (fun l => normWidth l 30)

/-- The two lines handed to a TD2 attempt (camera.service.ts:213,223). -/
def td2Norm (text : Line) : List Line :=
  ((cleanedOf text).take 2).map (fun l => normWidth l 36)

/-- The two lines handed to the TD3 attempt (camera.service.ts:220). -/
def td3Norm (text : Line) : List Line :=
  ((cleanedOf text).take 2).map (fun l => normWidth l 44)

/-- The 2-line branch (camera.service.ts:216-225): TD3 when the first cleaned
line has length at least 44, TD2 otherwise. -/
def twoLineAttempt (p : Parser) (text : Line) : Except Unit ParseResult :=
  if 44 ≤ ((cleanedOf text).headD []).length then p (td3Norm text)
  else p (td2Norm text)

/-- The Result Projector (camera.service.ts:232-251): a record when the parse
result is valid, the validation-failed diagnostic otherwise.  The pair is the
final state of the `mrzData` and `mrzError` signals. -/
def buildRecord (pr : ParseResult) (cleanedLines : List Line) :
    Option MRZData × Option String :=
  if pr.valid then
    (some
      { documentType := getDocumentType (pr.fields.documentCode.getD [])
        documentNumber := pr.fields.documentNumber.getD []
        firstName := pr.fields.firstName.getD []
        lastName := pr.fields.lastName.getD []
        nationality := pr.fields.nationality.getD []
        birthDate := formatMRZDate (pr.fields.birthDate.getD [])
        sex := pr.fields.sex.getD []
        expirationDate := formatMRZDate (pr.fields.expirationDate.getD [])
        issuingState := pr.fields.issuingState.getD []
        valid := pr.valid
        rawMRZ := cleanedLines }, none)
  else (none, some validationFailedMsg)

/-- `parseMRZFromText` (camera.service.ts:182-257).  The returned pair is the
final state of the `mrzData` and `mrzError` signals; the outer `try/catch` of
the source appears as the `Except.error` branches, each producing the
catch-all diagnostic. -/
def parseMRZFromText (p : Parser) (text : Line) : Option MRZData × Option String :=
  let mrzLines := candidateLines text
  if mrzLines.length = 0 then (none, some noMRZMsg)
  else
    let cleanedLines := mrzLines.map cleanLine
    if 3 ≤ cleanedLines.length then
      match p (td1Norm text) with
      | .ok r => buildRecord r cleanedLines
      | .error _ =>
        match p (td2Norm text) with
        | .ok r => buildRecord r cleanedLines
        | .error _ => (none, some parseExceptionMsg)
    else if 2 ≤ cleanedLines.length then
      match twoLineAttempt p text with
      | .ok r => buildRecord r cleanedLines
      | .error _ => (none, some parseExceptionMsg)
    else (none, some incompleteMsg)

/-! ## Helper lemmas -/

theorem normWidth_length (l : Line) (w : Nat) : (normWidth l w).length = w := by
  unfold normWidth padEnd
  rw [List.length_append, List.length_take, List.length_replicate]
  omega

theorem buildRecord_cases (pr : ParseResult) (cl : List Line) :
    (∃ d, buildRecord pr cl = (some d, none)) ∨
    (∃ m, buildRecord pr cl = (none, some m)) := by
  unfold buildRecord
  split
  · exact Or.inl ⟨_, rfl⟩
  · exact Or.inr ⟨_, rfl⟩

/-! ## C5, C2, C4 -/

/-- C5: for every input candidate line and every target width W in
{30, 36, 44}, the line produced by normalization for a format attempt
(uppercase, whitespace stripped, O mapped to 0, truncated or right-padded
with the filler character) has length exactly W. -/
theorem normalizeLine_length_eq_width (l : Line) (w : Nat)
    (hw : w = 30 ∨ w = 36 ∨ w = 44) :
    (normalizeLine l w).length = w := by
  unfold normalizeLine
  exact normWidth_length _ _

theorem normalizeLine_length_eq_width_witness :
    ((36 : Nat) = 30 ∨ (36 : Nat) = 36 ∨ (36 : Nat) = 44) ∧
    (normalizeLine "  P<UTO SMITH<<J0HN ".toList 36).length = 36 :=
  ⟨Or.inr (Or.inl rfl),
   normalizeLine_length_eq_width _ 36 (Or.inr (Or.inl rfl))⟩

/-- C2: one invocation of the pipeline on any input text, with any behavior
of the external parser (returning or throwing), produces exactly one of an
MRZData record and a diagnostic message: after `parseMRZFromText` returns,
exactly one of the `mrzData` and `mrzError` signals is non-null.  The model
is a total function: the outer try/catch of the source appears as the
`Except.error` branches, so no fault escapes. -/
theorem parseMRZFromText_exactly_one (p : Parser) (text : Line) :
    (∃ d, parseMRZFromText p text = (some d, none)) ∨
    (∃ m, parseMRZFromText p text = (none, some m)) := by
  simp only [parseMRZFromText]
  repeat' split
  all_goals first
    | exact Or.inr ⟨_, rfl⟩
    | exact buildRecord_cases _ _

/-- C4: with fewer than 2 candidate lines no parse is ever attempted (the
result does not depend on the parser): 0 candidate lines give the
no-candidates diagnostic and exactly 1 candidate line gives the incomplete
diagnostic. -/
theorem parseMRZFromText_few_candidates (p : Parser) (text : Line)
    (h : (candidateLines text).length ≤ 1) :
    parseMRZFromText p text =
      (none, some (if (candidateLines text).length = 0 then noMRZMsg
                   else incompleteMsg)) := by
  unfold parseMRZFromText
  by_cases h0 : (candidateLines text).length = 0
  · simp [h0]
  · have h3 : ¬ 3 ≤ (candidateLines text).length := by omega
    have h2 : ¬ 2 ≤ (candidateLines text).length := by omega
    simp [h0, h3, h2]

theorem parseMRZFromText_few_candidates_witness :
    ((candidateLines "P<UTO<<<".toList).length ≤ 1 ∧
      parseMRZFromText (fun _ => .error ()) "P<UTO<<<".toList =
        (none, some incompleteMsg)) ∧
    ((candidateLines ([] : Line)).length ≤ 1 ∧
      parseMRZFromText (fun _ => .error ()) ([] : Line) =
        (none, some noMRZMsg)) := by
  constructor
  · refine ⟨by decide, ?_⟩
    have h := parseMRZFromText_few_candidates (fun _ => .error ())
      "P<UTO<<<".toList (by decide)
    rw [h]
    decide
  · refine ⟨by decide, ?_⟩
    have h := parseMRZFromText_few_candidates (fun _ => .error ())
      ([] : Line) (by decide)
    rw [h]
    decide

/-! ## Date formatting: C6, C7, C10 -/

theorem digit_not_ws {c : Char} (h : c.isDigit = true) :
    isJsWhitespace c = false := by
  rcases Bool.eq_false_or_eq_true (isJsWhitespace c) with ht | hf
  · exfalso
    have hmem : c ∈ jsWsChars := by
      simpa [isJsWhitespace, List.elem_iff] using ht
    fin_cases hmem <;> exact absurd h (by decide)
  · exact hf

theorem jsParseInt_two_digits {a b : Char} (ha : a.isDigit = true)
    (hb : b.isDigit = true) :
    jsParseInt [a, b] = some ((a.toNat - 48) * 10 + (b.toNat - 48) : Nat) := by
  have hwa := digit_not_ws ha
  have hminus : ¬ a = '-' := fun h => absurd (h ▸ ha) (by decide)
  have hplus : ¬ a = '+' := fun h => absurd (h ▸ ha) (by decide)
  simp [jsParseInt, List.dropWhile_cons, hwa, hminus, hplus,
    leadingDigits, List.takeWhile_cons, ha, hb, digitsVal]

/-- C6: for every 6-digit YYMMDD date string, `formatMRZDate` maps a
two-digit year below 30 to the 2000s and a year of 30 or above to the
1900s, assembling the ISO string yyyy-mm-dd. -/
theorem formatMRZDate_century (y1 y2 m1 m2 d1 d2 : Char)
    (hy1 : y1.isDigit = true) (hy2 : y2.isDigit = true)
    (hm1 : m1.isDigit = true) (hm2 : m2.isDigit = true)
    (hd1 : d1.isDigit = true) (hd2 : d2.isDigit = true) :
    formatMRZDate [y1, y2, m1, m2, d1, d2] =
      (if (y1.toNat - 48) * 10 + (y2.toNat - 48) < 30
        then ['2', '0'] else ['1', '9'])
        ++ [y1, y2, '-', m1, m2, '-', d1, d2] := by
  simp [formatMRZDate, jsParseInt_two_digits hy1 hy2]
  split <;> split
  · rfl
  · exfalso; omega
  · exfalso; omega
  · rfl

theorem formatMRZDate_century_witness :
    formatMRZDate "290101".toList = "2029-01-01".toList ∧
    formatMRZDate "300101".toList = "1930-01-01".toList := by
  have h1 := formatMRZDate_century '2' '9' '0' '1' '0' '1'
    (by decide) (by decide) (by decide) (by decide) (by decide) (by decide)
  have h2 := formatMRZDate_century '3' '0' '0' '1' '0' '1'
    (by decide) (by decide) (by decide) (by decide) (by decide) (by decide)
  constructor
  · rw [show "290101".toList = ['2', '9', '0', '1', '0', '1'] from rfl, h1]
    decide
  · rw [show "300101".toList = ['3', '0', '0', '1', '0', '1'] from rfl, h2]
    decide

/-- C7 counterexample: "AB0101" has length 6 but is not all digits, and
`formatMRZDate` returns "19AB-01-01", not the empty string (the source only
checks the length, and `parseInt("AB")` is NaN, so the comparison with 30 is
false and the 1900s branch is taken). -/
theorem formatMRZDate_len6_nondigit_not_empty :
    formatMRZDate "AB0101".toList = "19AB-01-01".toList ∧
    "19AB-01-01".toList ≠ ([] : Line) := by
  constructor
  · decide
  · decide

/-- C7 (amended): for every input string whose length is not exactly 6,
`formatMRZDate` returns the empty string rather than raising an error; a
length-6 string is always formatted, digits or not. -/
theorem formatMRZDate_wrong_length_empty (s : Line) (h : s.length ≠ 6) :
    formatMRZDate s = [] := by
  simp [formatMRZDate, h]

theorem formatMRZDate_wrong_length_empty_witness :
    "12345".toList.length ≠ 6 ∧ formatMRZDate "12345".toList = [] :=
  ⟨by decide, formatMRZDate_wrong_length_empty _ (by decide)⟩

/-- C10: `formatMRZDate` performs no calendar-range validation: for every
6-character all-digit input the output is the century-adjusted year followed
by the verbatim month and day substrings, whatever their values. -/
theorem formatMRZDate_no_calendar_check (y1 y2 m1 m2 d1 d2 : Char)
    (hy1 : y1.isDigit = true) (hy2 : y2.isDigit = true)
    (hm1 : m1.isDigit = true) (hm2 : m2.isDigit = true)
    (hd1 : d1.isDigit = true) (hd2 : d2.isDigit = true) :
    (formatMRZDate [y1, y2, m1, m2, d1, d2]).take 4 =
      (if (y1.toNat - 48) * 10 + (y2.toNat - 48) < 30
        then ['2', '0'] else ['1', '9']) ++ [y1, y2] ∧
    (formatMRZDate [y1, y2, m1, m2, d1, d2]).drop 4 =
      ['-', m1, m2, '-', d1, d2] := by
  constructor
  · simp [formatMRZDate, jsParseInt_two_digits hy1 hy2]
    split <;> split
    · rfl
    · exfalso; omega
    · exfalso; omega
    · rfl
  · simp [formatMRZDate, jsParseInt_two_digits hy1 hy2]
    split <;> rfl

theorem formatMRZDate_no_calendar_check_witness :
    (formatMRZDate "991399".toList).drop 4 = "-13-99".toList ∧
    formatMRZDate "991399".toList = "1999-13-99".toList := by
  have h := formatMRZDate_no_calendar_check '9' '9' '1' '3' '9' '9'
    (by decide) (by decide) (by decide) (by decide) (by decide) (by decide)
  constructor
  · rw [show "991399".toList = ['9', '9', '1', '3', '9', '9'] from rfl, h.2]
    decide
  · decide

/-! ## C8: idempotence of normalization -/

/-- The MRZ character set `A`-`Z`, `0`-`9` and the filler `<`. -/
def mrzCharset : List Char :=
  "ABCDEFGHIJKLMNOPQRSTUVWXYZ0123456789<".toList

theorem mrz_toUpper_fix : ∀ c ∈ mrzCharset, Char.toUpper c = c := by decide

theorem mrz_not_ws : ∀ c ∈ mrzCharset, isJsWhitespace c = false := by decide

theorem dropWhile_eq_self_of {p : Char → Bool} (l : Line)
    (h : ∀ c ∈ l, p c = false) : l.dropWhile p = l := by
  cases l with
  | nil => rfl
  | cons a t => simp [List.dropWhile_cons, h a (List.mem_cons_self a t)]

/-- C8: normalization is idempotent: a line already normalized for target
width W (drawn from the MRZ character set, hence uppercase and free of
whitespace, containing no letter O, of length exactly W) is returned
unchanged by the normalization transform for width W. -/
theorem normalizeLine_idempotent (l : Line) (w : Nat)
    (hw : w = 30 ∨ w = 36 ∨ w = 44)
    (hchar : ∀ c ∈ l, c ∈ mrzCharset)
    (hO : 'O' ∉ l)
    (hlen : l.length = w) :
    normalizeLine l w = l := by
  have hws : ∀ c ∈ l, isJsWhitespace c = false :=
    fun c hc => mrz_not_ws c (hchar c hc)
  have htrim : jsTrim l = l := by
    unfold jsTrim
    rw [dropWhile_eq_self_of l hws,
      dropWhile_eq_self_of l.reverse
        (fun c hc => hws c (List.mem_reverse.mp hc)),
      List.reverse_reverse]
  have hupper : toUpperLine l = l := by
    unfold toUpperLine
    have h : l.map Char.toUpper = l.map (fun c => c) :=
      List.map_congr_left (fun c hc => mrz_toUpper_fix c (hchar c hc))
    rw [h, List.map_id']
  have hstrip : stripWs l = l := by
    unfold stripWs
    exact List.filter_eq_self.mpr (fun c hc => by simp [hws c hc])
  have hfix : fixO l = l := by
    unfold fixO
    have h : l.map (fun c => if c = 'O' then '0' else c) = l.map (fun c => c) :=
      List.map_congr_left (fun c hc => by
        have hne : ¬ c = 'O' := fun he => hO (he ▸ hc)
        simp [hne])
    rw [h, List.map_id']
  unfold normalizeLine cleanLine
  rw [htrim, hupper, hstrip, hfix]
  unfold normWidth padEnd
  rw [← hlen, List.take_length]
  simp

theorem normalizeLine_idempotent_witness :
    ((30 : Nat) = 30 ∨ (30 : Nat) = 36 ∨ (30 : Nat) = 44) ∧
    (∀ c ∈ "ID<UTD231458907<<<<<<<<<<<<<<<".toList, c ∈ mrzCharset) ∧
    'O' ∉ "ID<UTD231458907<<<<<<<<<<<<<<<".toList ∧
    "ID<UTD231458907<<<<<<<<<<<<<<<".toList.length = 30 ∧
    normalizeLine "ID<UTD231458907<<<<<<<<<<<<<<<".toList 30 =
      "ID<UTD231458907<<<<<<<<<<<<<<<".toList := by
  refine ⟨Or.inl rfl, by decide, by decide, by decide, ?_⟩
  exact normalizeLine_idempotent _ 30 (Or.inl rfl) (by decide) (by decide)
    (by decide)

/-! ## Format selection and failure propagation: C1, C3, C9 -/

/-- A parse-result fields object with every field absent. -/
def emptyFields : MRZFields :=
  ⟨none, none, none, none, none, none, none, none, none⟩

/-- Modelled from the spec: an instance of the section 4.4 MRZ Field Parser
and Validator, for a document whose TD2 check digits pass.  Per section 4.4
it never throws for well-formed-width input; it reports overall validity
exactly when handed the TD2 shape (2 lines of width 36), and reports the
aggregate validity flag false for any other shape — as the check digits of
a TD1 reading of truncated TD2 data fail. -/
def td2ValidParser : Parser := fun lines =>
  .ok { valid := lines.length == 2 && lines.all (fun l => l.length == 36)
        fields := emptyFields }

/-- Three well-formed TD2-shaped candidate lines (36 characters each). -/
def c1Text : Line :=
  ("ID<UTOSTEVENSON<<PETER<<<<<<<<<<<<<<\n" ++
   "D231458907UTO3407127M9507122<<<<<<<2\n" ++
   "ID<UTOSTEVENSON<<PETER<<<<<<<<<<<<<<").toList

/-- C1 (code bug): with three well-formed TD2-shaped candidate lines and a
section-4.4-style parser that never throws and reports the TD1
interpretation invalid, the pipeline returns the validation-failed
diagnostic instead of retrying as TD2 — although the same parser reports
the TD2 normalization of the same text valid.  The TD2 fallback of
camera.service.ts:211-214 is reachable only when `parseMRZ` throws, never
when it returns an invalid result. -/
theorem td1_invalid_not_retried_as_td2 :
    (candidateLines c1Text).length = 3 ∧
    parseMRZFromText td2ValidParser c1Text =
      (none, some validationFailedMsg) ∧
    td2ValidParser (td2Norm c1Text) =
      .ok { valid := true, fields := emptyFields } := by
  refine ⟨rfl, rfl, rfl⟩

/-- A parser that raises a failure on every call. -/
def throwingParser : Parser := fun _ => .error ()

/-- Three candidate lines used to exercise the raised-failure paths. -/
def c3Text : Line :=
  ("I<UTOERIKSSON<<ANNA<MARIA<<<<<<<<<<<\n" ++
   "L898902C36UTO7408122F1204159ZE184226\n" ++
   "XX<<<<<<<<<<<<<<<<<<<<<<<<<<<<<<<<<<").toList

/-- C3 counterexample: when the field parser raises a failure during the
TD1 attempt and again during the TD2 retry, the pipeline surfaces the
catch-all parse-exception diagnostic, not the validation-failed diagnostic
the claim names. -/
theorem td2_retry_raise_not_validation_failed :
    parseMRZFromText throwingParser c3Text =
      (none, some parseExceptionMsg) ∧
    parseExceptionMsg ≠ validationFailedMsg := by
  constructor
  · rfl
  · decide

/-- C3 (amended): a failure raised by the field parser during the TD1
attempt is swallowed and retried as TD2 — the pipeline result is whatever
processing the TD2 retry result yields; a failure raised during the TD2
retry, or during the single 2-line attempt, is caught by the pipeline's
outer handler and surfaced as the catch-all parse-exception diagnostic
(not as validation failed). -/
theorem raised_failure_propagation (p : Parser) (text : Line) :
    (3 ≤ (candidateLines text).length →
      p (td1Norm text) = .error () →
      parseMRZFromText p text =
        (match p (td2Norm text) with
          | .ok r => buildRecord r (cleanedOf text)
          | .error _ => (none, some parseExceptionMsg))) ∧
    ((candidateLines text).length = 2 →
      twoLineAttempt p text = .error () →
      parseMRZFromText p text = (none, some parseExceptionMsg)) := by
  constructor
  · intro h3 herr
    have h0 : ¬ (candidateLines text).length = 0 := by omega
    simp only [parseMRZFromText, cleanedOf, List.length_map, if_neg h0,
      if_pos h3, herr]
  · intro h2 hatt
    have h0 : ¬ (candidateLines text).length = 0 := by omega
    have h3 : ¬ 3 ≤ (candidateLines text).length := by omega
    have h2le : 2 ≤ (candidateLines text).length := by omega
    simp only [parseMRZFromText, cleanedOf, List.length_map, if_neg h0,
      if_neg h3, if_pos h2le, hatt]

theorem raised_failure_propagation_witness :
    3 ≤ (candidateLines c3Text).length ∧
    parseMRZFromText throwingParser c3Text =
      (match throwingParser (td2Norm c3Text) with
        | .ok r => buildRecord r (cleanedOf c3Text)
        | .error _ => (none, some parseExceptionMsg)) := by
  refine ⟨by decide, ?_⟩
  exact (raised_failure_propagation throwingParser c3Text).1 (by decide) rfl

/-- A parser that reports a valid result on every call. -/
def okParser : Parser := fun _ => .ok { valid := true, fields := emptyFields }

/-- Two candidate lines of cleaned length 40 (between the TD2 width 36 and
the TD3 threshold 44). -/
def c9Text : Line :=
  ("I<UTOSTEVENSON<<PETER<<<<<<<<<<<<<<<1234\n" ++
   "D231458907UTO3407127M9507122<<<<<<<29876").toList

/-- C9 counterexample: for two 40-character candidate lines the 2-line
branch normalizes to width 36 (the first cleaned line has length 40 < 44,
so TD2 is attempted), the parse succeeds, and the record's rawMRZ holds the
40-character cleaned lines — not the 36-character normalized lines used by
the successful attempt. -/
theorem rawMRZ_not_the_normalized_lines :
    (parseMRZFromText okParser c9Text).1.map (fun d => d.rawMRZ) ≠
      some (td2Norm c9Text) ∧
    (parseMRZFromText okParser c9Text).1 ≠ none ∧
    ((cleanedOf c9Text).headD []).length = 40 ∧
    (candidateLines c9Text).length = 2 := by
  refine ⟨by decide, by decide, by decide, by decide⟩

theorem buildRecord_rawMRZ {pr : ParseResult} {cl : List Line} {d : MRZData}
    (h : (buildRecord pr cl).1 = some d) : d.rawMRZ = cl := by
  unfold buildRecord at h
  split at h
  · simp only [Option.some.injEq] at h
    rw [← h]
  · simp at h

/-- C9 (amended): on every successful parse, the rawMRZ field of the
produced record is the full list of cleaned candidate lines (uppercased,
whitespace-stripped, O mapped to 0) — before width truncation or padding,
and including every candidate line, not only those used by the successful
attempt. -/
theorem rawMRZ_eq_cleaned_candidates (p : Parser) (text : Line)
    (d : MRZData) (h : (parseMRZFromText p text).1 = some d) :
    d.rawMRZ = cleanedOf text := by
  rw [cleanedOf]
  simp only [parseMRZFromText] at h
  repeat' split at h
  all_goals first
    | exact buildRecord_rawMRZ h
    | simp at h

theorem rawMRZ_eq_cleaned_candidates_witness :
    (parseMRZFromText okParser c9Text).1.map (fun d => d.rawMRZ) =
      some (cleanedOf c9Text) := by
  cases hd : (parseMRZFromText okParser c9Text).1 with
  | none => exact absurd hd (by decide)
  | some d =>
    simp [rawMRZ_eq_cleaned_candidates okParser c9Text d hd]
